import Mathlib

/-!
Shallow embedding of the SelectCite citation-resolution pipeline
(`src/js/background.js`, the deep-extraction variant of the background
service worker).  Pure string processing is translated directly; the two
network round trips are modelled by explicit `FetchOutcome` oracles, and
the tab-opening / notification collaborators are assumed to succeed (their
only observable effect, the URL handed to `chrome.tabs.create`, is recorded
in the `Outcome` type).  JavaScript builtins used by the code
(`encodeURIComponent`, `JSON.parse`, `String.prototype.trim`,
`String.prototype.replace`, regex matching) are modelled by executable
Lean functions below.
-/

/-- Whitespace class of JavaScript `\s` / `String.prototype.trim`
(space, tab, line terminators, NBSP, the Unicode space separators, BOM). -/
def isJsSpace (c : Char) : Bool :=
  c.toNat = 32 || c.toNat = 9 || c.toNat = 10 || c.toNat = 11 || c.toNat = 12 ||
  c.toNat = 13 || c.toNat = 160 || c.toNat = 5760 ||
  (8192 ≤ c.toNat && c.toNat ≤ 8202) ||
  c.toNat = 8232 || c.toNat = 8233 || c.toNat = 8239 || c.toNat = 8287 ||
  c.toNat = 12288 || c.toNat = 65279

/-- JavaScript `String.prototype.trim`. -/
def jsTrim (s : String) : String :=
  String.mk (((s.data.dropWhile isJsSpace).reverse.dropWhile isJsSpace).reverse)

/-- Replace every maximal run of `\s` whitespace by the single character `r`:
the effect of `replace(/\s+/g, r)`.  The boolean flag records whether the
previous character was part of a whitespace run. -/
def collapseWs (r : Char) : Bool → List Char → List Char
  | _, [] => []
  | inRun, c :: cs =>
    if isJsSpace c then
      if inRun then collapseWs r true cs else r :: collapseWs r true cs
    else c :: collapseWs r false cs

/-- The cleaned keyword of `searchForBibTex`:
`keyword.trim().replace(/\s+/g, '+')`. -/
def cleanKeywordOf (keyword : String) : String :=
  String.mk (collapseWs '+' false (jsTrim keyword).data)

/-- Drop a literal character sequence from the front of a list, returning the
remainder on success. -/
def dropLit : List Char → List Char → Option (List Char)
  | [], cs => some cs
  | _ :: _, [] => none
  | p :: ps, c :: cs => if p = c then dropLit ps cs else none

/-- Remove the first occurrence of the pattern `pat` from a character list:
the effect of JavaScript `String.prototype.replace` with a plain-string
pattern and an empty replacement. -/
def removeFirst (pat : List Char) : List Char → List Char
  | [] => []
  | c :: cs =>
    match dropLit pat (c :: cs) with
    | some rest => rest
    | none => c :: removeFirst pat cs

/-- The code's `u.replace('#f', '')`. -/
def jsReplaceHashF (s : String) : String :=
  String.mk (removeFirst ['#', 'f'] s.data)

/-! URI percent-encoding, as used by `encodeURIComponent` at
`background.js` lines 20 and 182. -/

/-- The percent sign. -/
def pctChar : Char := Char.ofNat 37

/-- Characters left unescaped by `encodeURIComponent`:
ASCII alphanumerics and `- _ . ! ~ * ' ( )`. -/
def isUriUnreserved (c : Char) : Bool :=
  (65 ≤ c.toNat && c.toNat ≤ 90) || (97 ≤ c.toNat && c.toNat ≤ 122) ||
  (48 ≤ c.toNat && c.toNat ≤ 57) ||
  c.toNat = 45 || c.toNat = 95 || c.toNat = 46 || c.toNat = 33 ||
  c.toNat = 126 || c.toNat = 42 || c.toNat = 39 || c.toNat = 40 || c.toNat = 41

/-- UTF-8 encoding of a scalar value, as a list of byte values. -/
def utf8Bytes (c : Char) : List Nat :=
  if c.toNat < 128 then [c.toNat]
  else if c.toNat < 2048 then [192 + c.toNat / 64, 128 + c.toNat % 64]
  else if c.toNat < 65536 then
    [224 + c.toNat / 4096, 128 + c.toNat / 64 % 64, 128 + c.toNat % 64]
  else
    [240 + c.toNat / 262144, 128 + c.toNat / 4096 % 64,
     128 + c.toNat / 64 % 64, 128 + c.toNat % 64]

/-- Upper-case hexadecimal digit for a value below 16. -/
def hexUpper (n : Nat) : Char :=
  if n < 10 then Char.ofNat (48 + n) else Char.ofNat (55 + n)

/-- Percent-escape of one byte: `%XY` with upper-case hex digits. -/
def pctTriple (b : Nat) : List Char := [pctChar, hexUpper (b / 16), hexUpper (b % 16)]

/-- Encoding of a single character by `encodeURIComponent`. -/
def encodeChar (c : Char) : List Char :=
  if isUriUnreserved c then [c] else (utf8Bytes c).flatMap pctTriple

/-- JavaScript `encodeURIComponent`. -/
def encodeURIComponent (s : String) : String :=
  String.mk (s.data.flatMap encodeChar)

/-- Value of a hexadecimal digit character (either case). -/
def hexVal (c : Char) : Option Nat :=
  if 48 ≤ c.toNat && c.toNat ≤ 57 then some (c.toNat - 48)
  else if 65 ≤ c.toNat && c.toNat ≤ 70 then some (c.toNat - 55)
  else if 97 ≤ c.toNat && c.toNat ≤ 102 then some (c.toNat - 87)
  else none

/-- Read one `%XY` escape from the front of the input, yielding the byte. -/
def readPctByte : List Char → Option (Nat × List Char)
  | p :: h :: l :: rest =>
    if p = pctChar then
      match hexVal h, hexVal l with
      | some a, some b => some (16 * a + b, rest)
      | _, _ => none
    else none
  | _ => none

/-- UTF-8 continuation byte test. -/
def isUtf8Cont (b : Nat) : Bool := 128 ≤ b && b < 192

/-- Decode one percent-escaped UTF-8 sequence from the front of the input
(the per-sequence step of JavaScript `decodeURIComponent`; malformed
sequences yield `none`, where the builtin throws `URIError`). -/
def decodeSeq (cs : List Char) : Option (Char × List Char) :=
  match readPctByte cs with
  | none => none
  | some (b1, r1) =>
    if b1 < 128 then some (Char.ofNat b1, r1)
    else if b1 < 194 then none
    else if b1 < 224 then
      match readPctByte r1 with
      | some (b2, r2) =>
        if isUtf8Cont b2 then some (Char.ofNat ((b1 - 192) * 64 + (b2 - 128)), r2)
        else none
      | none => none
    else if b1 < 240 then
      match readPctByte r1 with
      | some (b2, r2) =>
        match readPctByte r2 with
        | some (b3, r3) =>
          if isUtf8Cont b2 && isUtf8Cont b3 then
            if 2048 ≤ (b1 - 224) * 4096 + (b2 - 128) * 64 + (b3 - 128) &&
               !(55296 ≤ (b1 - 224) * 4096 + (b2 - 128) * 64 + (b3 - 128) &&
                 (b1 - 224) * 4096 + (b2 - 128) * 64 + (b3 - 128) < 57344) then
              some (Char.ofNat ((b1 - 224) * 4096 + (b2 - 128) * 64 + (b3 - 128)), r3)
            else none
          else none
        | none => none
      | none => none
    else if b1 < 245 then
      match readPctByte r1 with
      | some (b2, r2) =>
        match readPctByte r2 with
        | some (b3, r3) =>
          match readPctByte r3 with
          | some (b4, r4) =>
            if isUtf8Cont b2 && isUtf8Cont b3 && isUtf8Cont b4 then
              if 65536 ≤ (b1 - 240) * 262144 + (b2 - 128) * 4096 + (b3 - 128) * 64 + (b4 - 128) &&
                 (b1 - 240) * 262144 + (b2 - 128) * 4096 + (b3 - 128) * 64 + (b4 - 128) < 1114112 then
                some (Char.ofNat ((b1 - 240) * 262144 + (b2 - 128) * 4096 + (b3 - 128) * 64 + (b4 - 128)), r4)
              else none
            else none
          | none => none
        | none => none
      | none => none
    else none

/-- Fueled decoding loop of `decodeURIComponent`: characters other than `%`
pass through, `%` starts a percent-escaped UTF-8 sequence. -/
def decodeCore : Nat → List Char → Option (List Char)
  | _, [] => some []
  | 0, _ :: _ => none
  | fuel + 1, c :: cs =>
    if c = pctChar then
      match decodeSeq (c :: cs) with
      | none => none
      | some (ch, rest) => (decodeCore fuel rest).map (ch :: ·)
    else (decodeCore fuel cs).map (c :: ·)

/-- JavaScript `decodeURIComponent` (with `none` for `URIError`). -/
def decodeURIComponent (s : String) : Option String :=
  (decodeCore s.data.length s.data).map String.mk

/-! JavaScript value model and `JSON.parse`, for the two `JSON.parse` calls
in `background.js` (lines 82 and 124). -/

/-- JavaScript values reachable from `JSON.parse`, together with
`undefined` (the result of a missing property).  Numbers record the sign
and the mantissa digits only (the exponent is parsed and validated but
dropped); the code never compares numbers, it only tests truthiness and
positivity, and both are determined by the sign and the zero-ness of the
mantissa. -/
inductive JsValue where
  | undef
  | null
  | bool (b : Bool)
  | num (neg : Bool) (mantissa : Nat)
  | str (s : String)
  | arr (elems : List JsValue)
  | obj (fields : List (String × JsValue))

/-- Object member lookup; on duplicate keys `JSON.parse` keeps the last
binding, so the lookup prefers later fields. -/
def objFind (fields : List (String × JsValue)) (k : String) : Option JsValue :=
  match fields with
  | [] => none
  | (k2, v) :: rest =>
    match objFind rest k with
    | some r => some r
    | none => if k2 = k then some v else none

/-- JavaScript property access `v.k` (for the property names the code
uses).  Arrays and strings expose `length`; a missing property is
`undefined`. -/
def jsGet (v : JsValue) (k : String) : JsValue :=
  match v with
  | JsValue.obj fs => (objFind fs k).getD JsValue.undef
  | JsValue.arr xs => if k = "length" then JsValue.num false xs.length else JsValue.undef
  | JsValue.str s => if k = "length" then JsValue.num false s.length else JsValue.undef
  | _ => JsValue.undef

/-- JavaScript index access `v[n]`: array element, single-character string,
or the object member named by the decimal numeral. -/
def jsIndex (v : JsValue) (n : Nat) : JsValue :=
  match v with
  | JsValue.arr xs => (xs.get? n).getD JsValue.undef
  | JsValue.str s =>
    match s.data.get? n with
    | some c => JsValue.str (String.mk [c])
    | none => JsValue.undef
  | JsValue.obj fs => (objFind fs (toString n)).getD JsValue.undef
  | _ => JsValue.undef

/-- JavaScript truthiness (no `NaN` can arise from `JSON.parse`). -/
def truthy : JsValue → Bool
  | JsValue.undef => false
  | JsValue.null => false
  | JsValue.bool b => b
  | JsValue.num _ m => !(m == 0)
  | JsValue.str s => !(s == "")
  | JsValue.arr _ => true
  | JsValue.obj _ => true

/-- The comparison `v > 0` as the code uses it on `length` values (always a
number or `undefined` there; other operand types, which JavaScript would
coerce, do not arise from `.length` on the reachable values). -/
def jsGtZero : JsValue → Bool
  | JsValue.num neg m => !neg && !(m == 0)
  | _ => false

/-- Strict equality `v === s` against a string literal. -/
def jsEqStr (v : JsValue) (s : String) : Bool :=
  match v with
  | JsValue.str t => t == s
  | _ => false

/-- JSON insignificant whitespace (space, tab, line feed, carriage return). -/
def jsonWsDrop (cs : List Char) : List Char :=
  cs.dropWhile (fun c => c.toNat = 32 || c.toNat = 9 || c.toNat = 10 || c.toNat = 13)

/-- Prepend a character to the string part of a string-parser result. -/
def strCons (c : Char) : Option (List Char × List Char) → Option (List Char × List Char)
  | none => none
  | some (l, r) => some (c :: l, r)

/-- Body of a JSON string after the opening quote, with escapes; surrogate
pairs in `\u` escapes are combined (a lone surrogate is rejected since a
Lean character is a scalar value). -/
def parseStrBody : Nat → List Char → Option (List Char × List Char)
  | 0, _ => none
  | _ + 1, [] => none
  | fuel + 1, c :: rest =>
    if c = Char.ofNat 34 then some ([], rest)
    else if c = Char.ofNat 92 then
      match rest with
      | [] => none
      | e :: rest2 =>
        if e = Char.ofNat 34 || e = Char.ofNat 92 || e = '/' then
          strCons e (parseStrBody fuel rest2)
        else if e = 'b' then strCons (Char.ofNat 8) (parseStrBody fuel rest2)
        else if e = 'f' then strCons (Char.ofNat 12) (parseStrBody fuel rest2)
        else if e = 'n' then strCons (Char.ofNat 10) (parseStrBody fuel rest2)
        else if e = 'r' then strCons (Char.ofNat 13) (parseStrBody fuel rest2)
        else if e = 't' then strCons (Char.ofNat 9) (parseStrBody fuel rest2)
        else if e = 'u' then
          match rest2 with
          | h1 :: h2 :: h3 :: h4 :: rest3 =>
            match hexVal h1, hexVal h2, hexVal h3, hexVal h4 with
            | some a, some b, some c2, some d =>
              if 55296 ≤ 4096 * a + 256 * b + 16 * c2 + d &&
                 4096 * a + 256 * b + 16 * c2 + d < 56320 then
                match rest3 with
                | e2 :: u2 :: g1 :: g2 :: g3 :: g4 :: rest4 =>
                  if e2 = Char.ofNat 92 && u2 = 'u' then
                    match hexVal g1, hexVal g2, hexVal g3, hexVal g4 with
                    | some a2, some b2, some c3, some d2 =>
                      if 56320 ≤ 4096 * a2 + 256 * b2 + 16 * c3 + d2 &&
                         4096 * a2 + 256 * b2 + 16 * c3 + d2 < 57344 then
                        strCons
                          (Char.ofNat (65536 +
                            (4096 * a + 256 * b + 16 * c2 + d - 55296) * 1024 +
                            (4096 * a2 + 256 * b2 + 16 * c3 + d2 - 56320)))
                          (parseStrBody fuel rest4)
                      else none
                    | _, _, _, _ => none
                  else none
                | _ => none
              else if 56320 ≤ 4096 * a + 256 * b + 16 * c2 + d &&
                      4096 * a + 256 * b + 16 * c2 + d < 57344 then none
              else strCons (Char.ofNat (4096 * a + 256 * b + 16 * c2 + d))
                     (parseStrBody fuel rest3)
            | _, _, _, _ => none
          | _ => none
        else none
    else if c.toNat < 32 then none
    else strCons c (parseStrBody fuel rest)

/-- Numeric value of a run of decimal digit characters. -/
def digitsVal (cs : List Char) : Nat :=
  cs.foldl (fun a c => 10 * a + (c.toNat - 48)) 0

/-- Optional fraction part of a JSON number. -/
def parseFrac (cs : List Char) : Option (List Char × List Char) :=
  match cs with
  | p :: rest =>
    if p = '.' then
      let ds := rest.takeWhile Char.isDigit
      if ds.isEmpty then none else some (ds, rest.dropWhile Char.isDigit)
    else some ([], cs)
  | [] => some ([], cs)

/-- Optional exponent part of a JSON number (validated, then dropped). -/
def expDrop (cs : List Char) : Option (List Char) :=
  match cs with
  | c :: rest =>
    if c = 'e' || c = 'E' then
      let rest2 :=
        match rest with
        | s :: r2 => if s = '+' || s = '-' then r2 else rest
        | [] => rest
      let ds := rest2.takeWhile Char.isDigit
      if ds.isEmpty then none else some (rest2.dropWhile Char.isDigit)
    else some cs
  | [] => some cs

/-- JSON number (strict grammar: no leading zeros, a fraction or exponent
must have digits). -/
def parseNum (cs : List Char) : Option (JsValue × List Char) :=
  let (neg, cs1) :=
    match cs with
    | c :: rest => if c = '-' then (true, rest) else (false, cs)
    | [] => (false, cs)
  let ip := cs1.takeWhile Char.isDigit
  if ip.isEmpty then none
  else if 2 ≤ ip.length && ip.head? == some '0' then none
  else
    match parseFrac (cs1.dropWhile Char.isDigit) with
    | none => none
    | some (fp, cs3) =>
      match expDrop cs3 with
      | none => none
      | some rest => some (JsValue.num neg (digitsVal (ip ++ fp)), rest)

mutual

/-- One JSON value (recursive descent; the fuel bounds nesting and is
ample at `length + 1`). -/
def parseVal : Nat → List Char → Option (JsValue × List Char)
  | 0, _ => none
  | fuel + 1, cs =>
    match jsonWsDrop cs with
    | [] => none
    | c :: rest =>
      if c = Char.ofNat 34 then
        match parseStrBody (rest.length + 1) rest with
        | none => none
        | some (l, r) => some (JsValue.str (String.mk l), r)
      else if c = Char.ofNat 123 then
        match jsonWsDrop rest with
        | d :: r2 =>
          if d = Char.ofNat 125 then some (JsValue.obj [], r2)
          else
            match parseMembers fuel (d :: r2) with
            | none => none
            | some (fs, r) => some (JsValue.obj fs, r)
        | [] => none
      else if c = '[' then
        match jsonWsDrop rest with
        | d :: r2 =>
          if d = ']' then some (JsValue.arr [], r2)
          else
            match parseElems fuel (d :: r2) with
            | none => none
            | some (vs, r) => some (JsValue.arr vs, r)
        | [] => none
      else if c = 't' then
        match dropLit "rue".data rest with
        | some r => some (JsValue.bool true, r)
        | none => none
      else if c = 'f' then
        match dropLit "alse".data rest with
        | some r => some (JsValue.bool false, r)
        | none => none
      else if c = 'n' then
        match dropLit "ull".data rest with
        | some r => some (JsValue.null, r)
        | none => none
      else parseNum (c :: rest)

/-- Members of a JSON object after the opening brace (nonempty case). -/
def parseMembers : Nat → List Char → Option (List (String × JsValue) × List Char)
  | 0, _ => none
  | fuel + 1, cs =>
    match jsonWsDrop cs with
    | c :: rest =>
      if c = Char.ofNat 34 then
        match parseStrBody (rest.length + 1) rest with
        | some (key, r1) =>
          match jsonWsDrop r1 with
          | c2 :: r2 =>
            if c2 = ':' then
              match parseVal fuel r2 with
              | some (v, r3) =>
                match jsonWsDrop r3 with
                | c3 :: r4 =>
                  if c3 = ',' then
                    match parseMembers fuel r4 with
                    | some (fs, r) => some ((String.mk key, v) :: fs, r)
                    | none => none
                  else if c3 = Char.ofNat 125 then some ([(String.mk key, v)], r4)
                  else none
                | [] => none
              | none => none
            else none
          | [] => none
        | none => none
      else none
    | [] => none

/-- Elements of a JSON array after the opening bracket (nonempty case). -/
def parseElems : Nat → List Char → Option (List JsValue × List Char)
  | 0, _ => none
  | fuel + 1, cs =>
    match parseVal fuel cs with
    | some (v, r1) =>
      match jsonWsDrop r1 with
      | c :: r2 =>
        if c = ',' then
          match parseElems fuel r2 with
          | some (vs, r) => some (v :: vs, r)
          | none => none
        else if c = ']' then some (v :: [], r2)
        else none
      | [] => none
    | none => none

end

/-- JavaScript `JSON.parse` (with `none` for a thrown `SyntaxError`). -/
def jsonParse (s : String) : Option JsValue :=
  match parseVal (s.data.length + 1) s.data with
  | none => none
  | some (v, rest) => if (jsonWsDrop rest).isEmpty then some v else none

/-! Regex matchers of `extractPaperIdFromResponse` and
`getBibTexFromPaperId`, with JavaScript leftmost-match semantics: try a
full match at each start position from the left, taking the first
success. -/

/-- Try a position-wise matcher at every suffix, leftmost first. -/
def scanFirst (f : List Char → Option String) : List Char → Option String
  | [] => f []
  | c :: cs =>
    match f (c :: cs) with
    | some r => some r
    | none => scanFirst f cs

/-- Line terminators, which `.` does not match in a JavaScript regex. -/
def isLineTerm (c : Char) : Bool :=
  c.toNat = 10 || c.toNat = 13 || c.toNat = 8232 || c.toNat = 8233

/-- Lazy `.*?` followed by the two literal characters `stop1 stop2`:
capture the shortest run of non-line-terminator characters ending right
before the first occurrence of the two-character stop sequence. -/
def lazyFind (stop1 stop2 : Char) : List Char → Option (List Char × List Char)
  | [] => none
  | [_] => none
  | c :: d :: rest =>
    if c = stop1 && d = stop2 then some ([], rest)
    else if isLineTerm c then none
    else (lazyFind stop1 stop2 (d :: rest)).map (fun p => (c :: p.1, p.2))

/-- Position-wise match of pattern 1 of the extraction loop,
`/window\.googleSearchResponse\s*=\s*({.*?});/`, capturing the braced
group. -/
def matchP0At (cs : List Char) : Option String :=
  match dropLit "window.googleSearchResponse".data cs with
  | none => none
  | some r1 =>
    match dropLit ['='] (r1.dropWhile isJsSpace) with
    | none => none
    | some r2 =>
      match dropLit [Char.ofNat 123] (r2.dropWhile isJsSpace) with
      | none => none
      | some r3 =>
        match lazyFind (Char.ofNat 125) ';' r3 with
        | none => none
        | some (inner, _) =>
          some (String.mk (Char.ofNat 123 :: inner ++ [Char.ofNat 125]))

/-- Pattern 1 of the extraction loop (the embedded search-response object). -/
def matchP0 (s : String) : Option String := scanFirst matchP0At s.data

/-- Position-wise match of pattern 2, `/"r":\s*\[({.*?})\]/`. -/
def matchP1At (cs : List Char) : Option String :=
  match dropLit [Char.ofNat 34, 'r', Char.ofNat 34, ':'] cs with
  | none => none
  | some r1 =>
    match dropLit ['['] (r1.dropWhile isJsSpace) with
    | none => none
    | some r2 =>
      match dropLit [Char.ofNat 123] r2 with
      | none => none
      | some r3 =>
        match lazyFind (Char.ofNat 125) ']' r3 with
        | none => none
        | some (inner, _) =>
          some (String.mk (Char.ofNat 123 :: inner ++ [Char.ofNat 125]))

/-- Pattern 2 of the extraction loop (inline JSON array under the short key
`r`); its match result binds no identifier in the code. -/
def matchP1 (s : String) : Option String := scanFirst matchP1At s.data

/-- Position-wise match of a literal followed by `([^"]*)"`. -/
def matchQuotedAt (pre : List Char) (cs : List Char) : Option String :=
  match dropLit pre cs with
  | none => none
  | some r1 =>
    let cap := r1.takeWhile (fun c => !(c == Char.ofNat 34))
    match r1.dropWhile (fun c => !(c == Char.ofNat 34)) with
    | c :: _ => if c = Char.ofNat 34 then some (String.mk cap) else none
    | [] => none

/-- Pattern 3 of the extraction loop, `/data-clk="([^"]*)"/`; its match
result binds no identifier in the code. -/
def matchP2 (s : String) : Option String :=
  scanFirst (matchQuotedAt ("data-clk=".data ++ [Char.ofNat 34])) s.data

/-- Position-wise match of a literal followed by
`([^:]+):scholar\.google\.com`. -/
def matchInfoAt (pre : List Char) (cs : List Char) : Option String :=
  match dropLit pre cs with
  | none => none
  | some r1 =>
    let cap := r1.takeWhile (fun c => !(c == ':'))
    if cap.isEmpty then none
    else
      match dropLit ":scholar.google.com".data (r1.dropWhile (fun c => !(c == ':'))) with
      | none => none
      | some _ => some (String.mk cap)

/-- Pattern 4 of the extraction loop,
`/data-href="\/scholar\?q=info:([^:]+):scholar\.google\.com/`. -/
def matchP3 (s : String) : Option String :=
  scanFirst (matchInfoAt ("data-href=".data ++ [Char.ofNat 34] ++ "/scholar?q=info:".data)) s.data

/-- The final whole-body scan,
`/\/scholar\?q=info:([^:]+):scholar\.google\.com/`. -/
def citeInfoScan (s : String) : Option String :=
  scanFirst (matchInfoAt "/scholar?q=info:".data) s.data

/-- Position-wise match of the citation-page anchor pattern
`/href="([^"]*)"[^>]*>BibTeX<\/a>/`. -/
def matchAnchorAt (cs : List Char) : Option String :=
  match dropLit ("href=".data ++ [Char.ofNat 34]) cs with
  | none => none
  | some r1 =>
    let cap := r1.takeWhile (fun c => !(c == Char.ofNat 34))
    match r1.dropWhile (fun c => !(c == Char.ofNat 34)) with
    | _ :: r2 =>
      match dropLit ['>'] (r2.dropWhile (fun c => !(c == '>'))) with
      | none => none
      | some r3 =>
        match dropLit "BibTeX</a>".data r3 with
        | none => none
        | some _ => some (String.mk cap)
    | [] => none

/-- The HTML anchor scan of `getBibTexFromPaperId`. -/
def bibTexAnchorScan (s : String) : Option String := scanFirst matchAnchorAt s.data

/-! The pipeline of `background.js`. -/

/-- Outcome of the guarded path walk
`searchData.r && searchData.r.length > 0 && searchData.r[0].l &&
searchData.r[0].l.f && searchData.r[0].l.f.u` followed by
`searchData.r[0].l.f.u.replace('#f', '')`. -/
inductive PathResult where
  | found (pid : String)
  | miss
  | thrown

/-- Property access that, like JavaScript, throws (`none`) on a `null` or
`undefined` receiver. -/
def jsMemberT (v : JsValue) (k : String) : Option JsValue :=
  match v with
  | JsValue.undef => none
  | JsValue.null => none
  | _ => some (jsGet v k)

/-- The `r[0].l.f.u` path walk of pattern 1's branch in
`extractPaperIdFromResponse`: each `&&` guard short-circuits, a property
access on `null`/`undefined` throws, and `.replace` on a truthy non-string
value throws (`TypeError`s are caught by the function's outer `catch`). -/
def pathRLFU (searchData : JsValue) : PathResult :=
  match jsMemberT searchData "r" with
  | none => PathResult.thrown
  | some r =>
    if !truthy r then PathResult.miss
    else if !jsGtZero (jsGet r "length") then PathResult.miss
    else
      match jsMemberT (jsIndex r 0) "l" with
      | none => PathResult.thrown
      | some l =>
        if !truthy l then PathResult.miss
        else if !truthy (jsGet l "f") then PathResult.miss
        else if !truthy (jsGet (jsGet l "f") "u") then PathResult.miss
        else
          match jsGet (jsGet l "f") "u" with
          | JsValue.str s => PathResult.found (jsReplaceHashF s)
          | _ => PathResult.thrown

/-- Continuation of the extraction loop after pattern 1 has not returned:
patterns 2 (`"r": [...]`) and 3 (`data-clk`) may match here but bind no
identifier (their branch bodies only log), pattern 4 returns its capture,
then the final whole-body cite-link scan runs. -/
def extractAfterFirst (responseText : String) : Option String :=
  match matchP3 responseText with
  | some pid => some pid
  | none => citeInfoScan responseText

/-- `extractPaperIdFromResponse` (`background.js` lines 63-104).  A thrown
`SyntaxError` from `JSON.parse` or `TypeError` from the path walk is caught
by the function's `catch`, which returns `null` — skipping the remaining
patterns and the final scan. -/
def extractPaperIdFromResponse (responseText : String) : Option String :=
  match matchP0 responseText with
  | some captured =>
    match jsonParse captured with
    | none => none
    | some searchData =>
      match pathRLFU searchData with
      | PathResult.found pid => some pid
      | PathResult.thrown => none
      | PathResult.miss => extractAfterFirst responseText
  | none => extractAfterFirst responseText

/-- Outcome of one network call: a thrown fetch error, or a response with
an `ok` status flag and a body text. -/
inductive FetchOutcome where
  | exc
  | resp (ok : Bool) (body : String)

/-- Observable result of one pipeline run: the URL handed to
`chrome.tabs.create` (classified by the branch that opened it), or no
action at all. -/
inductive Outcome where
  | openedBibTex (url : JsValue)
  | openedCite (url : String)
  | openedFallback (url : String)
  | noop

/-- The citation-endpoint URL built by `getBibTexFromPaperId`. -/
def getBibTexCiteUrl (paperId : String) : String :=
  "https://scholar.google.com/scholar?output=gsb-cite&hl=en&q=info:" ++ paperId ++
    ":scholar.google.com/"

/-- The guard `citeData && citeData.i && citeData.i[0] &&
citeData.i[0].l === "BibTeX"`. -/
def citeCond (citeData : JsValue) : Bool :=
  truthy citeData && truthy (jsGet citeData "i") &&
    truthy (jsIndex (jsGet citeData "i") 0) &&
    jsEqStr (jsGet (jsIndex (jsGet citeData "i") 0) "l") "BibTeX"

/-- Body handling of `getBibTexFromPaperId` (lines 122-168): JSON first; the
HTML anchor scan runs only in the `catch` of `JSON.parse`; both failing
falls through to opening the citation-endpoint URL itself. -/
def bibTexFromCiteBody (citeUrl : String) (citeText : String) : Outcome :=
  match jsonParse citeText with
  | some citeData =>
    if citeCond citeData then
      Outcome.openedBibTex (jsGet (jsIndex (jsGet citeData "i") 0) "u")
    else Outcome.openedCite citeUrl
  | none =>
    match bibTexAnchorScan citeText with
    | some href => Outcome.openedBibTex (JsValue.str href)
    | none => Outcome.openedCite citeUrl

/-- `getBibTexFromPaperId` (lines 110-174): a fetch exception or non-ok
status is rethrown to the caller (`Except.error`). -/
def getBibTexFromPaperId (paperId : String) (citeFetch : FetchOutcome) :
    Except Unit Outcome :=
  match citeFetch with
  | FetchOutcome.exc => Except.error ()
  | FetchOutcome.resp ok body =>
    if ok then Except.ok (bibTexFromCiteBody (getBibTexCiteUrl paperId) body)
    else Except.error ()

/-- The URL built by `openScholarSearch` (lines 180-190). -/
def scholarSearchUrl (searchTerm : String) : String :=
  "https://scholar.google.com/scholar?hl=en&q=" ++ encodeURIComponent searchTerm

/-- The search URL built at line 20. -/
def scholarQueryUrl (cleanKeyword : String) : String :=
  "https://scholar.google.com/scholar?oi=gsb95&output=gsb&hl=en&q=" ++
    encodeURIComponent cleanKeyword

/-- `searchForBibTex` (lines 9-56), parameterised by the outcomes of the two
fetches.  The `catch` handler re-cleans the keyword and opens the fallback
search; tab creation and notifications are assumed to succeed. -/
def searchForBibTex (keyword : String) (searchFetch citeFetch : FetchOutcome) :
    Except Unit Outcome :=
  if keyword = "" then Except.ok Outcome.noop
  else
    let tried : Except Unit Outcome :=
      match searchFetch with
      | FetchOutcome.exc => Except.error ()
      | FetchOutcome.resp ok searchText =>
        if ok then
          match extractPaperIdFromResponse searchText with
          | some paperId => getBibTexFromPaperId paperId citeFetch
          | none =>
            Except.ok (Outcome.openedFallback (scholarSearchUrl (cleanKeywordOf keyword)))
        else Except.error ()
    match tried with
    | Except.ok r => Except.ok r
    | Except.error _ =>
      Except.ok (Outcome.openedFallback (scholarSearchUrl (cleanKeywordOf keyword)))

/-- The context-menu click listener (lines 243-254): returns the keyword
passed to `searchForBibTex`, or `none` when the pipeline is not invoked. -/
def onClickedKeyword (menuItemId : String) (selectionText : Option String) :
    Option String :=
  match selectionText with
  | none => none
  | some s =>
    if menuItemId = "selectcite-search" && !(s == "") then
      let selectedText := jsTrim s
      if 0 < selectedText.length then some selectedText else none
    else none

/-! Definitions taken from the specification's wording, for comparison with
the code's behaviour. -/

/-- Modelled from the spec: stripping the known trailing marker `#f`
("read its URL field ... stripping a known trailing marker"). -/
def specStripTrailingHashF (u : String) : String :=
  if u.data.reverse.take 2 = ['f', '#'] then String.mk (u.data.take (u.data.length - 2))
  else u

/-- Modelled from the spec: "select the entry whose label exactly equals
the target format name" — some entry of the citation-format list carries
the label `BibTeX`. -/
def hasBibTexLabeledEntry (v : JsValue) : Bool :=
  match jsGet v "i" with
  | JsValue.arr xs => xs.any (fun e => jsEqStr (jsGet e "l") "BibTeX")
  | _ => false

/-- Modelled from the spec: the outcome the anchor scan would produce if it
were attempted — the captured `href` on a match, the citation-endpoint URL
otherwise. -/
def anchorBranch (citeUrl citeText : String) : Outcome :=
  match bibTexAnchorScan citeText with
  | some href => Outcome.openedBibTex (JsValue.str href)
  | none => Outcome.openedCite citeUrl

/-! Helper lemmas. -/

/-- A property access can produce an object only from an object receiver. -/
theorem jsGet_obj_receiver {x : JsValue} {k : String} {fs : List (String × JsValue)}
    (h : jsGet x k = JsValue.obj fs) : ∃ gs, x = JsValue.obj gs := by
  cases x with
  | obj gs => exact ⟨gs, rfl⟩
  | arr xs =>
    simp only [jsGet] at h
    split at h <;> exact JsValue.noConfusion h
  | str s =>
    simp only [jsGet] at h
    split at h <;> exact JsValue.noConfusion h
  | undef => simp only [jsGet] at h; exact JsValue.noConfusion h
  | null => simp only [jsGet] at h; exact JsValue.noConfusion h
  | bool b => simp only [jsGet] at h; exact JsValue.noConfusion h
  | num n m => simp only [jsGet] at h; exact JsValue.noConfusion h

/-- A property access can produce a string only from an object receiver. -/
theorem jsGet_str_receiver {x : JsValue} {k : String} {s : String}
    (h : jsGet x k = JsValue.str s) : ∃ gs, x = JsValue.obj gs := by
  cases x with
  | obj gs => exact ⟨gs, rfl⟩
  | arr xs =>
    simp only [jsGet] at h
    split at h <;> exact JsValue.noConfusion h
  | str t =>
    simp only [jsGet] at h
    split at h <;> exact JsValue.noConfusion h
  | undef => simp only [jsGet] at h; exact JsValue.noConfusion h
  | null => simp only [jsGet] at h; exact JsValue.noConfusion h
  | bool b => simp only [jsGet] at h; exact JsValue.noConfusion h
  | num n m => simp only [jsGet] at h; exact JsValue.noConfusion h

/-- A property access can produce an array only from an object receiver. -/
theorem jsGet_arr_receiver {x : JsValue} {k : String} {xs : List JsValue}
    (h : jsGet x k = JsValue.arr xs) : ∃ gs, x = JsValue.obj gs := by
  cases x with
  | obj gs => exact ⟨gs, rfl⟩
  | arr ys =>
    simp only [jsGet] at h
    split at h <;> exact JsValue.noConfusion h
  | str t =>
    simp only [jsGet] at h
    split at h <;> exact JsValue.noConfusion h
  | undef => simp only [jsGet] at h; exact JsValue.noConfusion h
  | null => simp only [jsGet] at h; exact JsValue.noConfusion h
  | bool b => simp only [jsGet] at h; exact JsValue.noConfusion h
  | num n m => simp only [jsGet] at h; exact JsValue.noConfusion h

/-! Claim theorems. -/

/-- C10: identifier extraction can return a non-null identifier only through
the embedded-JSON-object matcher, the direct info-link matcher, or the final
whole-body citation-info scan.  When only the inline JSON array matcher or
the `data-clk` matcher can match and no citation-info link shape is present,
extraction returns `null`. -/
theorem c10_only_three_matchers_yield (b : String)
    (h0 : matchP0 b = none) (h3 : matchP3 b = none) (hscan : citeInfoScan b = none)
    (_hm : matchP1 b ≠ none ∨ matchP2 b ≠ none) :
    extractPaperIdFromResponse b = none := by
  simp only [extractPaperIdFromResponse, extractAfterFirst, h0, h3, hscan]

theorem c10_witness : extractPaperIdFromResponse "data-clk=\"X\"" = none :=
  c10_only_three_matchers_yield "data-clk=\"X\"" rfl rfl rfl (Or.inr (by decide))

/-- C8: a context-menu click whose selection text is absent, empty, or
whitespace-only after trimming never invokes the pipeline: the listener
passes no keyword to `searchForBibTex`, so no network request is made and
no URL is opened. -/
theorem c8_empty_selection_ignored (menuItemId : String) (sel : Option String)
    (h : ∀ s, sel = some s → jsTrim s = "") :
    onClickedKeyword menuItemId sel = none := by
  cases sel with
  | none => rfl
  | some s =>
    have hs := h s rfl
    simp only [onClickedKeyword]
    split
    · rw [hs]; rfl
    · rfl

theorem c8_witness : onClickedKeyword "selectcite-search" (some "  \t ") = none :=
  c8_empty_selection_ignored "selectcite-search" (some "  \t ")
    (fun s hsome => by cases hsome; rfl)

/-- C7: a citation-export response body that neither is valid JSON passing
the first-entry `BibTeX` test nor matches the HTML anchor pattern makes the
outcome a direct link to the citation-endpoint URL itself, not a
"not found" or fallback-search outcome. -/
theorem c7_fallthrough_opens_cite_url (citeUrl b : String)
    (hjson : ∀ v, jsonParse b = some v → citeCond v = false)
    (hscan : bibTexAnchorScan b = none) :
    bibTexFromCiteBody citeUrl b = Outcome.openedCite citeUrl := by
  cases hp : jsonParse b with
  | none => simp only [bibTexFromCiteBody, hp, hscan]
  | some v => simp only [bibTexFromCiteBody, hp, hjson v hp, Bool.false_eq_true, if_false]

theorem c7_witness :
    bibTexFromCiteBody (getBibTexCiteUrl "PID") "plain text" =
      Outcome.openedCite (getBibTexCiteUrl "PID") :=
  c7_fallthrough_opens_cite_url (getBibTexCiteUrl "PID") "plain text"
    (fun v hv => by
      rw [show jsonParse "plain text" = none from rfl] at hv
      exact Option.noConfusion hv)
    rfl

/-- Citation-export body whose `BibTeX` entry sits at position 1 of the
format list (position 0 is `EndNote`). -/
def c2CexBody : String :=
  "\x7b\"i\":[\x7b\"l\":\"EndNote\",\"u\":\"http://x\"\x7d,\x7b\"l\":\"BibTeX\",\"u\":\"http://y\"\x7d]\x7d"

/-- C2 counterexample: the body parses as JSON, the entry at position 1 is
labeled exactly `BibTeX` with URL `http://y`, yet the result is not a
direct link to `http://y` — the code tests only the first entry and falls
through to the citation-endpoint URL. -/
theorem c2_counterexample :
    (∃ v, jsonParse c2CexBody = some v ∧ hasBibTexLabeledEntry v = true ∧
      jsGet (jsIndex (jsGet v "i") 1) "u" = JsValue.str "http://y") ∧
    bibTexFromCiteBody (getBibTexCiteUrl "PID") c2CexBody ≠
      Outcome.openedBibTex (JsValue.str "http://y") := by
  refine ⟨⟨_, rfl, rfl, rfl⟩, ?_⟩
  rw [show bibTexFromCiteBody (getBibTexCiteUrl "PID") c2CexBody =
        Outcome.openedCite (getBibTexCiteUrl "PID") from rfl]
  exact fun hcontra => Outcome.noConfusion hcontra

/-- C2 (amended): a citation-export response that parses as JSON yields a
direct link exactly when the FIRST entry of the format list is labeled
`BibTeX`; the link is that first entry's URL field, and entries at later
positions are never consulted. -/
theorem c2_amended_first_entry (citeUrl b : String) (v i0 : JsValue)
    (rest : List JsValue) (url : String)
    (hp : jsonParse b = some v) (hi : jsGet v "i" = JsValue.arr (i0 :: rest))
    (ht : truthy i0 = true) (hl : jsGet i0 "l" = JsValue.str "BibTeX")
    (hu : jsGet i0 "u" = JsValue.str url) :
    bibTexFromCiteBody citeUrl b = Outcome.openedBibTex (JsValue.str url) := by
  obtain ⟨gs, hg⟩ := jsGet_arr_receiver hi
  have hv : truthy v = true := by rw [hg]; rfl
  have hidx : jsIndex (jsGet v "i") 0 = i0 := by
    rw [hi]; simp [jsIndex]
  have hcond : citeCond v = true := by
    unfold citeCond
    rw [hidx, hi, hl, hv, ht]
    simp [truthy, jsEqStr]
  simp only [bibTexFromCiteBody, hp, hcond, if_true, hidx, hu]

/-- Citation-export body whose single format entry is labeled `BibTeX`. -/
def c2WitnessBody : String := "\x7b\"i\":[\x7b\"l\":\"BibTeX\",\"u\":\"http://y\"\x7d]\x7d"

theorem c2_amended_witness :
    bibTexFromCiteBody "CU" c2WitnessBody = Outcome.openedBibTex (JsValue.str "http://y") :=
  c2_amended_first_entry "CU" c2WitnessBody
    (JsValue.obj [("i", JsValue.arr
      [JsValue.obj [("l", JsValue.str "BibTeX"), ("u", JsValue.str "http://y")]])])
    (JsValue.obj [("l", JsValue.str "BibTeX"), ("u", JsValue.str "http://y")])
    [] "http://y" rfl rfl rfl rfl rfl

/-- Citation-export body that is valid JSON (an array of strings, so no
format entry at all) whose raw text nevertheless matches the HTML anchor
pattern (with capture `,`). -/
def c3CexBody : String := "[\"href=\",\"x\",\">BibTeX</a>\"]"

/-- C3 counterexample: for this valid-JSON body with no matching entry the
anchor scan would succeed, yet the outcome ignores it — the scan lives only
in the `catch` of `JSON.parse`, so case (b) of the claim fails. -/
theorem c3_counterexample :
    (∃ v, jsonParse c3CexBody = some v ∧ hasBibTexLabeledEntry v = false) ∧
    bibTexAnchorScan c3CexBody = some "," ∧
    bibTexFromCiteBody "CU" c3CexBody ≠ anchorBranch "CU" c3CexBody := by
  refine ⟨⟨_, rfl, rfl⟩, rfl, ?_⟩
  rw [show bibTexFromCiteBody "CU" c3CexBody = Outcome.openedCite "CU" from rfl,
      show anchorBranch "CU" c3CexBody = Outcome.openedBibTex (JsValue.str ",") from rfl]
  exact fun hcontra => Outcome.noConfusion hcontra

/-- C3 (amended): the HTML anchor scan is attempted exactly when the body is
not valid JSON (case (a)); when the body is valid JSON whose first entry
fails the `BibTeX` test (case (b)), the scan is skipped and the
citation-endpoint URL itself is opened. -/
theorem c3_amended_scan_only_on_parse_failure (citeUrl b : String) :
    (jsonParse b = none → bibTexFromCiteBody citeUrl b = anchorBranch citeUrl b) ∧
    (∀ v, jsonParse b = some v → citeCond v = false →
      bibTexFromCiteBody citeUrl b = Outcome.openedCite citeUrl) := by
  constructor
  · intro h
    simp only [bibTexFromCiteBody, anchorBranch, h]
  · intro v h hc
    simp only [bibTexFromCiteBody, h, hc, Bool.false_eq_true, if_false]

theorem c3_amended_witness :
    bibTexFromCiteBody "CU" "notjson" = anchorBranch "CU" "notjson" :=
  (c3_amended_scan_only_on_parse_failure "CU" "notjson").1 rfl

/-- C4 counterexample: for the input `Attention Is All You Need` with a
search response yielding no identifier, the opened fallback URL
percent-encodes the `'+'`-joined keyword (`%2B`), not the space-joined
variant (`%20`) the claim states. -/
theorem c4_counterexample :
    searchForBibTex "Attention Is All You Need" (FetchOutcome.resp true "") FetchOutcome.exc =
      Except.ok (Outcome.openedFallback
        "https://scholar.google.com/scholar?hl=en&q=Attention%2BIs%2BAll%2BYou%2BNeed") ∧
    "https://scholar.google.com/scholar?hl=en&q=Attention%2BIs%2BAll%2BYou%2BNeed" ≠
      "https://scholar.google.com/scholar?hl=en&q=Attention%20Is%20All%20You%20Need" :=
  ⟨rfl, by decide⟩

/-- C4 (amended): when no extraction pattern yields an identifier, the
pipeline opens the fallback search URL whose query parameter is the
percent-encoding of the `'+'`-joined, whitespace-normalized keyword. -/
theorem c4_amended_fallback_url (keyword b : String) (citeFetch : FetchOutcome)
    (hk : keyword ≠ "") (hx : extractPaperIdFromResponse b = none) :
    searchForBibTex keyword (FetchOutcome.resp true b) citeFetch =
      Except.ok (Outcome.openedFallback (scholarSearchUrl (cleanKeywordOf keyword))) := by
  simp only [searchForBibTex, if_neg hk, hx]
  rfl

theorem c4_amended_witness :
    searchForBibTex "Attention Is All You Need" (FetchOutcome.resp true "") FetchOutcome.exc =
      Except.ok (Outcome.openedFallback
        (scholarSearchUrl (cleanKeywordOf "Attention Is All You Need"))) :=
  c4_amended_fallback_url "Attention Is All You Need" "" FetchOutcome.exc (by decide) rfl

/-- Search-response body on which the embedded-object pattern matches with
an unparsable capture, while the body also contains a citation-info link. -/
def c5CexBody : String :=
  "window.googleSearchResponse = \x7bbad\x7d;/scholar?q=info:ABC:scholar.google.com"

/-- C5 counterexample: pattern 1 matches but its `JSON.parse` throws; the
claim says the final whole-body scan (which here would find `ABC`) is still
applied before yielding null, yet extraction returns null directly. -/
theorem c5_counterexample :
    matchP0 c5CexBody = some "\x7bbad\x7d" ∧
    jsonParse "\x7bbad\x7d" = none ∧
    citeInfoScan c5CexBody = some "ABC" ∧
    extractPaperIdFromResponse c5CexBody = none ∧
    extractPaperIdFromResponse c5CexBody ≠ citeInfoScan c5CexBody :=
  ⟨rfl, rfl, rfl, rfl, by decide⟩

/-- C5 (amended): the ordered matchers run first-hit as claimed and the
final whole-body scan is applied when no matcher yields an identifier —
except that a matched embedded-object pattern whose JSON parse (or path
walk) throws makes extraction return null immediately, skipping the
remaining matchers and the final scan. -/
theorem c5_amended_ordered_matchers (b : String) :
    (∀ cap, matchP0 b = some cap → jsonParse cap = none →
      extractPaperIdFromResponse b = none) ∧
    (∀ cap v, matchP0 b = some cap → jsonParse cap = some v →
      pathRLFU v = PathResult.thrown → extractPaperIdFromResponse b = none) ∧
    (∀ cap v, matchP0 b = some cap → jsonParse cap = some v →
      pathRLFU v = PathResult.miss →
      extractPaperIdFromResponse b = extractAfterFirst b) ∧
    (matchP0 b = none → extractPaperIdFromResponse b = extractAfterFirst b) ∧
    (∀ pid, matchP3 b = some pid → extractAfterFirst b = some pid) ∧
    (matchP3 b = none → extractAfterFirst b = citeInfoScan b) := by
  refine ⟨?_, ?_, ?_, ?_, ?_, ?_⟩ <;> intros <;>
    simp only [extractPaperIdFromResponse, extractAfterFirst, *]

theorem c5_amended_witness :
    extractPaperIdFromResponse "abc" = extractAfterFirst "abc" :=
  (c5_amended_ordered_matchers "abc").2.2.2.1 rfl

/-- Search-response body with a well-formed embedded object whose
`r[0].l.f.u` value contains a non-trailing `#f`. -/
def c6CexBody : String :=
  "window.googleSearchResponse = \x7b\"r\":[\x7b\"l\":\x7b\"f\":\x7b\"u\":\"a#fb\"\x7d\x7d\x7d]\x7d;"

/-- C6 counterexample: the embedded object resolves to the URL value
`a#fb`, which carries no trailing `#f` marker, yet extraction returns `ab`
— `replace('#f', '')` removes the first occurrence anywhere, not a
trailing marker. -/
theorem c6_counterexample :
    (∃ cap v, matchP0 c6CexBody = some cap ∧ jsonParse cap = some v ∧
      jsGet (jsGet (jsGet (jsIndex (jsGet v "r") 0) "l") "f") "u" = JsValue.str "a#fb") ∧
    extractPaperIdFromResponse c6CexBody = some "ab" ∧
    specStripTrailingHashF "a#fb" = "a#fb" ∧
    ("ab" : String) ≠ "a#fb" :=
  ⟨⟨_, _, rfl, rfl, rfl⟩, rfl, rfl, by decide⟩

/-- C6 (amended): for a search response whose embedded object resolves the
`r[0].l.f.u` path to a nonempty string, extraction returns that URL value
with the FIRST occurrence of `#f` removed (for the usual responses the
marker is trailing and unique, so this strips the trailing marker), and
the citation-export request URL built from the extracted identifier is
exactly the `output=gsb-cite` template around it. -/
theorem c6_amended_stripped_id_and_cite_url (body cap s : String) (v r0 : JsValue)
    (rest : List JsValue)
    (h0 : matchP0 body = some cap) (hp : jsonParse cap = some v)
    (hr : jsGet v "r" = JsValue.arr (r0 :: rest))
    (hu : jsGet (jsGet (jsGet r0 "l") "f") "u" = JsValue.str s)
    (hs : s ≠ "") :
    extractPaperIdFromResponse body = some (jsReplaceHashF s) ∧
    getBibTexCiteUrl (jsReplaceHashF s) =
      "https://scholar.google.com/scholar?output=gsb-cite&hl=en&q=info:" ++
        jsReplaceHashF s ++ ":scholar.google.com/" := by
  obtain ⟨fs, hf⟩ := jsGet_str_receiver hu
  obtain ⟨ls, hl⟩ := jsGet_obj_receiver (hf ▸ rfl : jsGet (jsGet r0 "l") "f" = JsValue.obj fs)
  obtain ⟨rs, hr0⟩ := jsGet_obj_receiver (hl ▸ rfl : jsGet r0 "l" = JsValue.obj ls)
  obtain ⟨vs, hv⟩ := jsGet_arr_receiver hr
  have hmem : jsMemberT v "r" = some (JsValue.arr (r0 :: rest)) := by
    rw [hv] at hr ⊢
    simp only [jsMemberT, hr]
  have hidx : jsIndex (JsValue.arr (r0 :: rest)) 0 = r0 := by simp [jsIndex]
  have hmem2 : jsMemberT (jsIndex (JsValue.arr (r0 :: rest)) 0) "l" = some (jsGet r0 "l") := by
    rw [hidx, hr0]
    simp only [jsMemberT]
  have hpath : pathRLFU v = PathResult.found (jsReplaceHashF s) := by
    unfold pathRLFU
    rw [hmem]
    simp only [hmem2]
    rw [hu, hf, hl]
    simp [truthy, jsGet, jsGtZero, hs]
  constructor
  · simp only [extractPaperIdFromResponse, h0, hp, hpath]
  · rfl

/-- Search-response body for the amended C6, with URL value `X#f`. -/
def c6WitnessBody : String :=
  "window.googleSearchResponse=\x7b\"r\":[\x7b\"l\":\x7b\"f\":\x7b\"u\":\"X#f\"\x7d\x7d\x7d]\x7d;"

theorem c6_amended_witness :
    extractPaperIdFromResponse c6WitnessBody = some (jsReplaceHashF "X#f") ∧
    getBibTexCiteUrl (jsReplaceHashF "X#f") =
      "https://scholar.google.com/scholar?output=gsb-cite&hl=en&q=info:" ++
        jsReplaceHashF "X#f" ++ ":scholar.google.com/" :=
  c6_amended_stripped_id_and_cite_url c6WitnessBody
    "\x7b\"r\":[\x7b\"l\":\x7b\"f\":\x7b\"u\":\"X#f\"\x7d\x7d\x7d]\x7d" "X#f"
    (JsValue.obj [("r", JsValue.arr
      [JsValue.obj [("l", JsValue.obj [("f", JsValue.obj [("u", JsValue.str "X#f")])])]])])
    (JsValue.obj [("l", JsValue.obj [("f", JsValue.obj [("u", JsValue.str "X#f")])])])
    [] rfl rfl rfl rfl (by decide)

/-- C1: for every non-empty query string and every outcome of the two
network calls (exception, non-ok status, any body), `searchForBibTex`
completes without propagating an exception; a failed search fetch — and a
failed citation fetch after a successful extraction — degrade to opening
the fallback search URL from the error handler. -/
theorem c1_never_throws (keyword : String) (searchFetch citeFetch : FetchOutcome)
    (hk : keyword ≠ "") :
    ∃ out, searchForBibTex keyword searchFetch citeFetch = Except.ok out ∧
      ((searchFetch = FetchOutcome.exc ∨ ∃ b, searchFetch = FetchOutcome.resp false b) →
        out = Outcome.openedFallback (scholarSearchUrl (cleanKeywordOf keyword))) ∧
      (∀ b pid, searchFetch = FetchOutcome.resp true b →
        extractPaperIdFromResponse b = some pid →
        (citeFetch = FetchOutcome.exc ∨ ∃ b2, citeFetch = FetchOutcome.resp false b2) →
        out = Outcome.openedFallback (scholarSearchUrl (cleanKeywordOf keyword))) := by
  cases searchFetch with
  | exc =>
    refine ⟨Outcome.openedFallback (scholarSearchUrl (cleanKeywordOf keyword)), ?_, ?_, ?_⟩
    · simp only [searchForBibTex, if_neg hk]
    · intro _; rfl
    · intro _ _ _ _ _; rfl
  | resp ok b =>
    cases ok with
    | false =>
      refine ⟨Outcome.openedFallback (scholarSearchUrl (cleanKeywordOf keyword)), ?_, ?_, ?_⟩
      · simp only [searchForBibTex, if_neg hk]; rfl
      · intro _; rfl
      · intro _ _ _ _ _; rfl
    | true =>
      cases hx : extractPaperIdFromResponse b with
      | none =>
        refine ⟨Outcome.openedFallback (scholarSearchUrl (cleanKeywordOf keyword)), ?_, ?_, ?_⟩
        · simp only [searchForBibTex, if_neg hk, hx]; rfl
        · intro _; rfl
        · intro _ _ _ _ _; rfl
      | some pid =>
        cases citeFetch with
        | exc =>
          refine ⟨Outcome.openedFallback (scholarSearchUrl (cleanKeywordOf keyword)), ?_, ?_, ?_⟩
          · simp only [searchForBibTex, if_neg hk, hx, getBibTexFromPaperId]; rfl
          · intro h
            rcases h with h | ⟨b2, h⟩ <;> cases h
          · intro _ _ _ _ _; rfl
        | resp ok2 b2 =>
          cases ok2 with
          | false =>
            refine ⟨Outcome.openedFallback (scholarSearchUrl (cleanKeywordOf keyword)), ?_, ?_, ?_⟩
            · simp only [searchForBibTex, if_neg hk, hx, getBibTexFromPaperId]; rfl
            · intro h
              rcases h with h | ⟨b3, h⟩ <;> cases h
            · intro _ _ _ _ _; rfl
          | true =>
            refine ⟨bibTexFromCiteBody (getBibTexCiteUrl pid) b2, ?_, ?_, ?_⟩
            · simp only [searchForBibTex, if_neg hk, hx, getBibTexFromPaperId]; rfl
            · intro h
              rcases h with h | ⟨b3, h⟩ <;> cases h
            · intro b3 pid2 hb hpid hc
              rcases hc with hc | ⟨b4, hc⟩ <;> cases hc

theorem c1_witness :
    ∃ out, searchForBibTex "a b" FetchOutcome.exc FetchOutcome.exc = Except.ok out ∧
      ((FetchOutcome.exc = FetchOutcome.exc ∨
          ∃ b, FetchOutcome.exc = FetchOutcome.resp false b) →
        out = Outcome.openedFallback (scholarSearchUrl (cleanKeywordOf "a b"))) ∧
      (∀ b pid, FetchOutcome.exc = FetchOutcome.resp true b →
        extractPaperIdFromResponse b = some pid →
        (FetchOutcome.exc = FetchOutcome.exc ∨
          ∃ b2, FetchOutcome.exc = FetchOutcome.resp false b2) →
        out = Outcome.openedFallback (scholarSearchUrl (cleanKeywordOf "a b"))) :=
  c1_never_throws "a b" FetchOutcome.exc FetchOutcome.exc (by decide)

/-! Percent-encoding round trip. -/

/-- Valid scalar-value ranges of a character. -/
theorem char_valid_ranges (c : Char) :
    c.toNat < 55296 ∨ (57344 ≤ c.toNat ∧ c.toNat < 1114112) := by
  have h := c.valid
  simp only [UInt32.isValidChar, Nat.isValidChar] at h
  exact h

/-- Hex digits round-trip through `hexUpper`. -/
theorem hexVal_hexUpper : ∀ n, n < 16 → hexVal (hexUpper n) = some n := by decide

/-- Reading back a percent-escaped byte. -/
theorem readPct_triple (b : Nat) (rest : List Char) (hb : b < 256) :
    readPctByte (pctTriple b ++ rest) = some (b, rest) := by
  have h1 : hexVal (hexUpper (b / 16)) = some (b / 16) := hexVal_hexUpper _ (by omega)
  have h2 : hexVal (hexUpper (b % 16)) = some (b % 16) := hexVal_hexUpper _ (by omega)
  show readPctByte (pctChar :: hexUpper (b / 16) :: hexUpper (b % 16) :: rest) = some (b, rest)
  simp only [readPctByte, h1, h2, if_true]
  have hval : 16 * (b / 16) + b % 16 = b := by omega
  rw [hval]

/-- The UTF-8 encoding of a character is nonempty. -/
theorem utf8Bytes_cons (c : Char) : ∃ b bs, utf8Bytes c = b :: bs := by
  unfold utf8Bytes
  split
  · exact ⟨_, _, rfl⟩
  · split
    · exact ⟨_, _, rfl⟩
    · split
      · exact ⟨_, _, rfl⟩
      · exact ⟨_, _, rfl⟩

/-- Shape of percent-escaping a nonempty byte list. -/
theorem flatMap_pctTriple_cons (b : Nat) (bs : List Nat) :
    (b :: bs).flatMap pctTriple =
      pctChar :: hexUpper (b / 16) :: hexUpper (b % 16) :: bs.flatMap pctTriple := by
  simp [List.flatMap_cons, pctTriple]

/-- An unreserved character is not the percent sign. -/
theorem unreserved_ne_pct (c : Char) (hu : isUriUnreserved c = true) : ¬(c = pctChar) := by
  intro hc
  rw [hc] at hu
  exact absurd hu (by decide)

/-- Decoding one encoded character from the front of the input. -/
theorem decodeSeq_enc (c : Char) (rest : List Char) :
    decodeSeq ((utf8Bytes c).flatMap pctTriple ++ rest) = some (c, rest) := by
  have hval := char_valid_ranges c
  by_cases h1 : c.toNat < 128
  · have hb : (utf8Bytes c).flatMap pctTriple = pctTriple c.toNat := by
      unfold utf8Bytes
      rw [if_pos h1]
      simp
    rw [hb]
    simp only [decodeSeq, readPct_triple c.toNat rest (by omega)]
    rw [if_pos h1, Char.ofNat_toNat]
  · by_cases h2 : c.toNat < 2048
    · have hb : (utf8Bytes c).flatMap pctTriple =
          pctTriple (192 + c.toNat / 64) ++ pctTriple (128 + c.toNat % 64) := by
        unfold utf8Bytes
        rw [if_neg h1, if_pos h2]
        simp
      rw [hb, List.append_assoc]
      simp only [decodeSeq, readPct_triple (192 + c.toNat / 64) _ (by omega),
        readPct_triple (128 + c.toNat % 64) rest (by omega)]
      rw [if_neg (by omega), if_neg (by omega), if_pos (by omega),
        if_pos (by simp only [isUtf8Cont, Bool.and_eq_true, decide_eq_true_eq]; omega)]
      rw [show (192 + c.toNat / 64 - 192) * 64 + (128 + c.toNat % 64 - 128) = c.toNat from
            by omega,
        Char.ofNat_toNat]
    · by_cases h3 : c.toNat < 65536
      · have hb : (utf8Bytes c).flatMap pctTriple =
            pctTriple (224 + c.toNat / 4096) ++
              (pctTriple (128 + c.toNat / 64 % 64) ++ pctTriple (128 + c.toNat % 64)) := by
          unfold utf8Bytes
          rw [if_neg h1, if_neg h2, if_pos h3]
          simp
        rw [hb, List.append_assoc, List.append_assoc]
        simp only [decodeSeq, readPct_triple (224 + c.toNat / 4096) _ (by omega),
          readPct_triple (128 + c.toNat / 64 % 64) _ (by omega),
          readPct_triple (128 + c.toNat % 64) rest (by omega)]
        rw [if_neg (by omega), if_neg (by omega), if_neg (by omega), if_pos (by omega),
          if_pos (by simp only [isUtf8Cont, Bool.and_eq_true, decide_eq_true_eq]; omega)]
        rw [show (224 + c.toNat / 4096 - 224) * 4096 + (128 + c.toNat / 64 % 64 - 128) * 64 +
              (128 + c.toNat % 64 - 128) = c.toNat from by omega]
        rw [if_pos (by simp only [Bool.and_eq_true, Bool.not_eq_true', Bool.and_eq_false_iff,
              decide_eq_true_eq, decide_eq_false_iff_not]; omega)]
        rw [Char.ofNat_toNat]
      · have hb : (utf8Bytes c).flatMap pctTriple =
            pctTriple (240 + c.toNat / 262144) ++
              (pctTriple (128 + c.toNat / 4096 % 64) ++
                (pctTriple (128 + c.toNat / 64 % 64) ++ pctTriple (128 + c.toNat % 64))) := by
          unfold utf8Bytes
          rw [if_neg h1, if_neg h2, if_neg h3]
          simp
        have hhi : c.toNat < 1114112 := by omega
        rw [hb, List.append_assoc, List.append_assoc, List.append_assoc]
        simp only [decodeSeq, readPct_triple (240 + c.toNat / 262144) _ (by omega),
          readPct_triple (128 + c.toNat / 4096 % 64) _ (by omega),
          readPct_triple (128 + c.toNat / 64 % 64) _ (by omega),
          readPct_triple (128 + c.toNat % 64) rest (by omega)]
        rw [if_neg (by omega), if_neg (by omega), if_neg (by omega), if_neg (by omega),
          if_pos (by omega),
          if_pos (by simp only [isUtf8Cont, Bool.and_eq_true, decide_eq_true_eq]; omega)]
        rw [show (240 + c.toNat / 262144 - 240) * 262144 +
              (128 + c.toNat / 4096 % 64 - 128) * 4096 +
              (128 + c.toNat / 64 % 64 - 128) * 64 + (128 + c.toNat % 64 - 128) = c.toNat from
              by omega]
        rw [if_pos (by simp only [Bool.and_eq_true, decide_eq_true_eq]; omega)]
        rw [Char.ofNat_toNat]

/-- Head of an encoded (non-unreserved) character is the percent sign. -/
theorem enc_head_pct (c : Char) (r : List Char) :
    ((utf8Bytes c).flatMap pctTriple ++ r).head? = some pctChar := by
  obtain ⟨b, bs, hbs⟩ := utf8Bytes_cons c
  rw [hbs, flatMap_pctTriple_cons]
  rfl

/-- An encoded (non-unreserved) character takes at least three characters. -/
theorem enc_len_ge3 (c : Char) : 3 ≤ ((utf8Bytes c).flatMap pctTriple).length := by
  obtain ⟨b, bs, hbs⟩ := utf8Bytes_cons c
  rw [hbs, flatMap_pctTriple_cons]
  simp only [List.length_cons]
  omega

/-- One step of the decode loop on a percent-led input. -/
theorem decodeCore_pct_step (k : Nat) (cs : List Char) (ch : Char) (rest : List Char)
    (hhead : cs.head? = some pctChar) (hseq : decodeSeq cs = some (ch, rest)) :
    decodeCore (k + 1) cs = (decodeCore k rest).map (ch :: ·) := by
  cases cs with
  | nil => exact Option.noConfusion hhead
  | cons x xs =>
    have hx : x = pctChar := Option.some.inj hhead
    subst hx
    simp only [decodeCore, hseq]
    simp

/-- The decode loop inverts the encoding of a character list, given enough
fuel. -/
theorem decodeCore_encode (l : List Char) : ∀ fuel : Nat,
    (l.flatMap encodeChar).length ≤ fuel → decodeCore fuel (l.flatMap encodeChar) = some l := by
  induction l with
  | nil =>
    intro fuel _
    cases fuel <;> rfl
  | cons c t ih =>
    intro fuel hf
    rw [List.flatMap_cons] at hf ⊢
    by_cases hu : isUriUnreserved c = true
    · have he : encodeChar c = [c] := by
        unfold encodeChar
        rw [if_pos hu]
      rw [he] at hf ⊢
      rw [List.singleton_append] at hf ⊢
      cases fuel with
      | zero => simp at hf
      | succ k =>
        simp only [decodeCore]
        rw [if_neg (unreserved_ne_pct c hu)]
        rw [ih k (by simp only [List.length_cons] at hf; omega)]
        rfl
    · have he : encodeChar c = (utf8Bytes c).flatMap pctTriple := by
        unfold encodeChar
        rw [if_neg hu]
      rw [he] at hf ⊢
      have h3 := enc_len_ge3 c
      cases fuel with
      | zero =>
        exfalso
        simp only [List.length_append] at hf
        omega
      | succ k =>
        rw [decodeCore_pct_step k _ c (t.flatMap encodeChar)
          (enc_head_pct c _) (decodeSeq_enc c _)]
        rw [ih k (by simp only [List.length_append] at hf; omega)]
        rfl

/-- C9: percent-decoding the percent-encoding used to build the search URLs
(`encodeURIComponent`, as applied to the whitespace-normalized keyword in
`openScholarSearch` and the search request) yields back exactly the
original string, for every string. -/
theorem c9_percent_encoding_roundtrip (s : String) :
    decodeURIComponent (encodeURIComponent s) = some s := by
  unfold decodeURIComponent encodeURIComponent
  rw [show (String.mk (s.data.flatMap encodeChar)).data = s.data.flatMap encodeChar from rfl]
  rw [decodeCore_encode s.data _ (le_refl _)]
  cases s
  rfl
